import Mathlib

/-!
Shallow embedding of `src/index.ts` of fastify-multer: the Multer
configuration/dispatch shim.  The embedding translates, line by line, the
storage selection of the `Multer` constructor, the default file filter
`allowAll`, the per-request limit state and the limit-enforcing
`wrappedFileFilter` built by `_makeBeforeHandler`, the five entry points
(`single`, `array`, `fields`, `none`, `any`) and the `multer` factory
function.  JavaScript-specific behaviour is embedded explicitly: numbers
stored in the `filesLeft` object are either finite (`Int`) or `Infinity`,
and the truthiness tests `if (options.storage)`, `else if (options.dest)`,
`options.fileFilter || allowAll` and `(filesLeft[fieldname] || 0) <= 0`
are translated with JavaScript's falsiness of `undefined`, `0` and `""`.
-/

namespace FastifyMulter

/-- Error codes of `MulterError` that `src/index.ts` constructs.  The only
code built in this file of the source is `LIMIT_UNEXPECTED_FILE`
(line 65). -/
inductive ErrorCode
  | LIMIT_UNEXPECTED_FILE
deriving DecidableEq

/-- A `MulterError` as constructed by `new MulterError(code, field)`. -/
structure MulterError where
  code : ErrorCode
  field : Option String
deriving DecidableEq

/-- The metadata of a file part that `wrappedFileFilter` can consult;
only `fieldname` is inspected by the code under verification. -/
structure File where
  fieldname : String
  originalname : String
deriving DecidableEq

/-- An abstract incoming request; the shim never inspects it, it is only
threaded through to the caller's filter. -/
structure Req where
  id : Nat
deriving DecidableEq

/-- The observable outcome of one invocation of a file-filter callback
`cb(error, acceptFile)`: `cb(null, true)` is `⟨Option.none, true⟩`,
`cb(err)` is `⟨some err, false⟩` (a missing second argument is falsy). -/
structure CbCall where
  error : Option MulterError
  accept : Bool
deriving DecidableEq

/-- A caller-supplied file filter, as a function from the request and the
file metadata to the callback outcome it produces. -/
abbrev FileFilter := Req → File → CbCall

/-- `allowAll` (src/index.ts lines 20-22): calls `cb(null, true)` for
every request and file. -/
def allowAll : FileFilter := fun _ _ => ⟨Option.none, true⟩

/-- A JavaScript number stored in the `filesLeft` object: either a finite
number (`field.maxCount`) or `Infinity` (maxCount absent), as assigned on
lines 52-56 of src/index.ts. -/
inductive JSCount
  | num (n : Int)
  | inf
deriving DecidableEq

/-- The test `(x || 0) <= 0` of line 64 of src/index.ts, where `x` is
`filesLeft[file.fieldname]`: `undefined` and `0` are falsy and fall back
to `0`; `Infinity` is truthy and not `≤ 0`; any other finite number `n`
is compared as `n ≤ 0`. -/
def jsOrZeroLeZero : Option JSCount → Bool
  | Option.none => true
  | some (JSCount.num n) => decide (n ≤ 0)
  | some JSCount.inf => false

/-- The decrement `x -= 1` on a `filesLeft` entry (line 68):
`Infinity - 1 = Infinity` in JavaScript. -/
def jsDec : JSCount → JSCount
  | JSCount.num n => JSCount.num (n - 1)
  | JSCount.inf => JSCount.inf

/-- A field declaration `{name, maxCount}`; `maxCount` is optional. -/
structure Field where
  name : String
  maxCount : Option Int
deriving DecidableEq

/-- The value stored into `filesLeft[field.name]` by lines 51-57 of
src/index.ts: `field.maxCount` when it is a number, `Infinity` otherwise. -/
def initCount (f : Field) : JSCount :=
  match f.maxCount with
  | some k => JSCount.num k
  | Option.none => JSCount.inf

/-- The per-request limit state: the `filesLeft` object created by
`Object.create(null)` (line 49), read at string keys; a missing key reads
as `undefined` (`Option.none`). -/
abbrev LimitState := String → Option JSCount

/-- The freshly created `Object.create(null)`: every key is absent. -/
def emptyLimitState : LimitState := fun _ => Option.none

/-- Property assignment `st[name] = v` on the `filesLeft` object. -/
def setCount (st : LimitState) (name : String) (v : JSCount) : LimitState :=
  fun s => if s = name then some v else st s

/-- The `fields.forEach` loop of lines 51-57 of src/index.ts, populating
`filesLeft` from the field declarations (a later declaration of the same
name overwrites an earlier one, as property assignment does). -/
def filesLeftInit (fields : List Field) : LimitState :=
  fields.foldl (fun st f => setCount st f.name (initCount f)) emptyLimitState

/-- The observable outcome of one call of `wrappedFileFilter` for a file
part: either the part is rejected immediately via
`cb(new MulterError('LIMIT_UNEXPECTED_FILE', file.fieldname))` — in which
case neither the caller's `fileFilter` nor anything beyond it (storage)
is reached — or the budget is decremented and the part is handed on to
the caller's `fileFilter`. -/
inductive AdmitResult
  | rejectedWith (e : MulterError)
  | toCallerFilter
deriving DecidableEq

/-- `wrappedFileFilter` (src/index.ts lines 59-70), as a function of the
current `filesLeft` state and the file part, returning the admission
outcome together with the state after the call.  Line 64 rejects when
`(filesLeft[file.fieldname] || 0) <= 0`; otherwise line 68 decrements the
entry and line 69 invokes the caller's filter. -/
def wrappedFileFilter (filesLeft : LimitState) (file : File) :
    AdmitResult × LimitState :=
  if jsOrZeroLeZero (filesLeft file.fieldname) then
    (AdmitResult.rejectedWith ⟨ErrorCode.LIMIT_UNEXPECTED_FILE, some file.fieldname⟩,
      filesLeft)
  else
    (AdmitResult.toCallerFilter,
      fun s => if s = file.fieldname then (filesLeft file.fieldname).map jsDec
               else filesLeft s)

/-- Modelled from the spec: the ingestion coordinator
(`src/lib/make-beforehandler`, not under src/) feeds the file parts of one
request through the request's `fileFilter` one at a time, sequentially in
arrival order, threading the closure state.  `processParts` runs
`wrappedFileFilter` over a part list and collects the per-part admission
outcomes and the final `filesLeft` state. -/
def processParts (st : LimitState) : List File → List AdmitResult × LimitState
  | [] => ([], st)
  | f :: fs =>
    ((wrappedFileFilter st f).1 :: (processParts (wrappedFileFilter st f).2 fs).1,
      (processParts (wrappedFileFilter st f).2 fs).2)

/-- The file strategies of `src/lib/file-appender` used by the entry
points: `'VALUE'`, `'ARRAY'`, `'OBJECT'`, `'NONE'`. -/
inductive Strategy
  | VALUE
  | ARRAY
  | OBJECT
  | NONE
deriving DecidableEq

/-- An abstract caller-supplied storage engine (`options.storage`); the
shim only stores the reference, so it is opaque here. -/
structure StorageEngine where
  id : Nat
deriving DecidableEq

/-- The storage the constructor ends up with (src/index.ts lines 32-38):
the explicit engine, `diskStorage({destination: options.dest})`, or
`memoryStorage()`. -/
inductive StorageChoice
  | engine (e : StorageEngine)
  | disk (destination : String)
  | memory
deriving DecidableEq

/-- The `limits` option; carried through unchanged by the shim. -/
structure Limits where
  fileSize : Option Nat
  files : Option Nat
deriving DecidableEq

/-- The options object accepted by the `Multer` constructor.  Each field
is `Option` because every property may be absent (`undefined`). -/
structure Options where
  storage : Option StorageEngine
  dest : Option String
  limits : Option Limits
  preservePath : Option Bool
  fileFilter : Option FileFilter

/-- The empty options object `{}`. -/
def emptyOptions : Options :=
  ⟨Option.none, Option.none, Option.none, Option.none, Option.none⟩

/-- Storage selection of the constructor (src/index.ts lines 32-38):
`if (options.storage) ... else if (options.dest) ... else memoryStorage()`.
Truthiness is embedded faithfully: a supplied engine object is always
truthy, but a supplied destination that is the empty string `""` is falsy
and falls through to the memory engine. -/
def selectStorage (o : Options) : StorageChoice :=
  match o.storage with
  | some e => StorageChoice.engine e
  | Option.none =>
    match o.dest with
    | some d => if d = "" then StorageChoice.memory else StorageChoice.disk d
    | Option.none => StorageChoice.memory

/-- The state of a constructed `Multer` instance (src/index.ts lines
31-44): selected storage, the options carried through, and the effective
file filter `options.fileFilter || allowAll` (a supplied filter function
is always truthy). -/
structure MulterState where
  storage : StorageChoice
  limits : Option Limits
  preservePath : Option Bool
  fileFilter : FileFilter

/-- The `Multer` constructor. -/
def Multer.construct (o : Options) : MulterState :=
  ⟨selectStorage o, o.limits, o.preservePath, o.fileFilter.getD allowAll⟩

/-- What an entry point hands to `makeBeforeHandler` via its setup
closure: whether the parser's `fileFilter` is the limit-enforcing
`wrappedFileFilter` built over a list of field declarations
(`limitFields = some fields`, entry points `single`/`array`/`fields`/
`none`) or the instance's caller filter used directly with no wrapper
(`limitFields = Option.none`, entry point `any`, src/index.ts line 108),
together with the underlying caller filter and the file strategy. -/
structure ParserConfig where
  limitFields : Option (List Field)
  caller : FileFilter
  fileStrategy : Strategy

/-- `single(name)` (src/index.ts lines 84-86): one declared field
`{name, maxCount: 1}`, strategy `'VALUE'`. -/
def Multer.single (m : MulterState) (name : String) : ParserConfig :=
  ⟨some [⟨name, some 1⟩], m.fileFilter, Strategy.VALUE⟩

/-- `array(name, maxCount)` (src/index.ts lines 88-93): one declared
field `{name, maxCount}`, strategy `'ARRAY'`. -/
def Multer.array (m : MulterState) (name : String) (maxCount : Option Int) :
    ParserConfig :=
  ⟨some [⟨name, maxCount⟩], m.fileFilter, Strategy.ARRAY⟩

/-- `fields(fields)` (src/index.ts lines 95-97): the given declarations,
strategy `'OBJECT'`. -/
def Multer.fields (m : MulterState) (fields : List Field) : ParserConfig :=
  ⟨some fields, m.fileFilter, Strategy.OBJECT⟩

/-- `none()` (src/index.ts lines 99-101): zero declared fields, strategy
`'NONE'`. -/
def Multer.none (m : MulterState) : ParserConfig :=
  ⟨some [], m.fileFilter, Strategy.NONE⟩

/-- `any()` (src/index.ts lines 103-113): its setup passes
`this.fileFilter` directly as the parser's `fileFilter` — there is no
wrapper and no field declarations — with strategy `'ARRAY'`. -/
def Multer.any (m : MulterState) : ParserConfig :=
  ⟨Option.none, m.fileFilter, Strategy.ARRAY⟩

/-- The per-part admission outcomes of one request under a parser
configuration: with `limitFields = some fields` the parts run through
`wrappedFileFilter` over a fresh `filesLeftInit fields` (the setup
closure creates `filesLeft` anew, src/index.ts line 49); with
`limitFields = Option.none` (`any()`) every part goes directly to the
caller's filter. -/
def admissionResults (cfg : ParserConfig) (parts : List File) :
    List AdmitResult :=
  match cfg.limitFields with
  | some fs => (processParts (filesLeftInit fs) parts).1
  | Option.none => parts.map (fun _ => AdmitResult.toCallerFilter)

/-- Modelled from the spec: `makeBeforeHandler` (`src/lib/make-beforehandler`,
not under src/) invokes the setup closure once per incoming request, and
each invocation executes lines 47-57 of src/index.ts afresh, creating a
new `filesLeft` object with `Object.create(null)`.  `processRequests`
therefore runs each request of a list from its own fresh limit state. -/
def processRequests (cfg : ParserConfig) (reqs : List (List File)) :
    List (List AdmitResult) :=
  reqs.map (fun parts => admissionResults cfg parts)

/-- Number of parts of a list naming a given field. -/
def countName (name : String) (parts : List File) : Nat :=
  (parts.filter (fun f => f.fieldname == name)).length

/-- The error thrown by the `multer` factory for a bad argument; the
spec's error taxonomy calls this condition `INVALID_OPTIONS`. -/
inductive FactoryError
  | invalidOptions (message : String)
deriving DecidableEq

/-- Classification of the JavaScript value passed to `multer(options)`:
`undefined`, a non-null object, `null` (which has `typeof 'object'` but
is excluded by the `!== null` test), or a non-object value. -/
inductive MulterArg
  | undef
  | objArg (o : Options)
  | nullArg
  | primArg

/-- The `multer` factory (src/index.ts lines 116-126): `undefined` gives
`new Multer({})`; a non-null object is passed through; anything else
throws `TypeError('Expected object for argument options')`. -/
def multer : MulterArg → Except FactoryError MulterState
  | MulterArg.undef => Except.ok (Multer.construct emptyOptions)
  | MulterArg.objArg o => Except.ok (Multer.construct o)
  | MulterArg.nullArg =>
      Except.error (FactoryError.invalidOptions "Expected object for argument options")
  | MulterArg.primArg =>
      Except.error (FactoryError.invalidOptions "Expected object for argument options")

/-- A limit state is nonnegative when every finite entry is `≥ 0`. -/
def nonnegState (st : LimitState) : Prop :=
  ∀ n k, st n = some (JSCount.num k) → 0 ≤ k

/-- When the budget test of line 64 fires, `wrappedFileFilter` answers
the `LIMIT_UNEXPECTED_FILE` error for the file's field and leaves the
state untouched. -/
theorem wrappedFileFilter_of_leZero (st : LimitState) (file : File)
    (h : jsOrZeroLeZero (st file.fieldname) = true) :
    wrappedFileFilter st file =
      (AdmitResult.rejectedWith ⟨ErrorCode.LIMIT_UNEXPECTED_FILE, some file.fieldname⟩, st) := by
  simp [wrappedFileFilter, h]

/-- When the budget test does not fire, the part goes to the caller's
filter. -/
theorem wrappedFileFilter_fst_of_pos (st : LimitState) (file : File)
    (h : jsOrZeroLeZero (st file.fieldname) = false) :
    (wrappedFileFilter st file).1 = AdmitResult.toCallerFilter := by
  simp [wrappedFileFilter, h]

/-- When the part goes on to the caller's filter, the file's own entry is
decremented. -/
theorem wrappedFileFilter_snd_self_of_pos (st : LimitState) (file : File)
    (h : jsOrZeroLeZero (st file.fieldname) = false) :
    (wrappedFileFilter st file).2 file.fieldname = (st file.fieldname).map jsDec := by
  simp [wrappedFileFilter, h]

/-- A call of `wrappedFileFilter` never changes the entry of any other
field name. -/
theorem wrappedFileFilter_snd_other (st : LimitState) (file : File) (n : String)
    (h : n ≠ file.fieldname) :
    (wrappedFileFilter st file).2 n = st n := by
  unfold wrappedFileFilter
  split
  · rfl
  · simp [h]

/-- Unfolding of `processParts` on a cons cell. -/
theorem processParts_cons (st : LimitState) (p : File) (ps : List File) :
    (processParts st (p :: ps)).1 =
      (wrappedFileFilter st p).1 :: (processParts (wrappedFileFilter st p).2 ps).1 :=
  rfl

/-- Counting in the empty list. -/
theorem countName_nil (name : String) : countName name [] = 0 := rfl

/-- Counting over a cons whose head names the field. -/
theorem countName_cons_self (name : String) (f : File) (l : List File)
    (h : f.fieldname = name) :
    countName name (f :: l) = countName name l + 1 := by
  simp [countName, h]

/-- Counting over a cons whose head names another field. -/
theorem countName_cons_other (name : String) (f : File) (l : List File)
    (h : f.fieldname ≠ name) :
    countName name (f :: l) = countName name l := by
  simp [countName, h]

/-- Decision characterization of the limit enforcer: when the limit state
holds the finite budget `k` for `name`, the part at index `i` naming
`name` is handed to the caller's filter exactly when fewer than `k`
earlier parts named `name`, and is otherwise rejected with
`LIMIT_UNEXPECTED_FILE` for `name`. -/
theorem processParts_decision (parts : List File) :
    ∀ (st : LimitState) (name : String) (k : Int) (i : Nat) (f : File),
    st name = some (JSCount.num k) → parts[i]? = some f → f.fieldname = name →
    (processParts st parts).1[i]? =
      some (if (countName name (parts.take i) : Int) < k
            then AdmitResult.toCallerFilter
            else AdmitResult.rejectedWith ⟨ErrorCode.LIMIT_UNEXPECTED_FILE, some name⟩) := by
  induction parts with
  | nil =>
    intro st name k i f _ hi _
    simp at hi
  | cons p ps ih =>
    intro st name k i f hst hi hf
    cases i with
    | zero =>
      simp only [List.getElem?_cons_zero, Option.some.injEq] at hi
      subst hi
      rw [processParts_cons, List.getElem?_cons_zero, List.take_zero, countName_nil]
      by_cases hk : k ≤ 0
      · have hz : jsOrZeroLeZero (st p.fieldname) = true := by
          rw [hf, hst]; simp [jsOrZeroLeZero, hk]
        rw [wrappedFileFilter_of_leZero st p hz, hf]
        simp [show ¬ ((0 : Int) < k) from by omega]
      · have hz : jsOrZeroLeZero (st p.fieldname) = false := by
          rw [hf, hst]; simp [jsOrZeroLeZero]; omega
        rw [wrappedFileFilter_fst_of_pos st p hz]
        simp [show (0 : Int) < k from by omega]
    | succ j =>
      have hi' : ps[j]? = some f := by simpa using hi
      rw [processParts_cons, List.getElem?_cons_succ, List.take_succ_cons]
      by_cases hp : p.fieldname = name
      · rw [countName_cons_self name p _ hp]
        by_cases hk : k ≤ 0
        · have hz : jsOrZeroLeZero (st p.fieldname) = true := by
            rw [hp, hst]; simp [jsOrZeroLeZero, hk]
          rw [wrappedFileFilter_of_leZero st p hz]
          rw [ih st name k j f hst hi' hf]
          congr 1
          exact if_congr (by push_cast; omega) rfl rfl
        · have hz : jsOrZeroLeZero (st p.fieldname) = false := by
            rw [hp, hst]; simp [jsOrZeroLeZero]; omega
          have hst' : (wrappedFileFilter st p).2 name = some (JSCount.num (k - 1)) := by
            rw [← hp, wrappedFileFilter_snd_self_of_pos st p hz, hp, hst]
            simp [jsDec]
          rw [ih (wrappedFileFilter st p).2 name (k - 1) j f hst' hi' hf]
          congr 1
          exact if_congr (by push_cast; omega) rfl rfl
      · rw [countName_cons_other name p _ hp]
        have hst' : (wrappedFileFilter st p).2 name = some (JSCount.num k) := by
          rw [wrappedFileFilter_snd_other st p name (fun he => hp he.symm), hst]
        exact ih (wrappedFileFilter st p).2 name k j f hst' hi' hf

/-- Decision characterization for an undeclared name: when the limit
state has no entry for `name`, every part naming `name` is rejected with
`LIMIT_UNEXPECTED_FILE` for `name`. -/
theorem processParts_undeclared (parts : List File) :
    ∀ (st : LimitState) (name : String) (i : Nat) (f : File),
    st name = Option.none → parts[i]? = some f → f.fieldname = name →
    (processParts st parts).1[i]? =
      some (AdmitResult.rejectedWith ⟨ErrorCode.LIMIT_UNEXPECTED_FILE, some name⟩) := by
  induction parts with
  | nil =>
    intro st name i f _ hi _
    simp at hi
  | cons p ps ih =>
    intro st name i f hst hi hf
    cases i with
    | zero =>
      simp only [List.getElem?_cons_zero, Option.some.injEq] at hi
      subst hi
      have hz : jsOrZeroLeZero (st p.fieldname) = true := by
        rw [hf, hst]; rfl
      rw [processParts_cons, List.getElem?_cons_zero,
        wrappedFileFilter_of_leZero st p hz, hf]
    | succ j =>
      have hi' : ps[j]? = some f := by simpa using hi
      rw [processParts_cons, List.getElem?_cons_succ]
      by_cases hp : p.fieldname = name
      · have hz : jsOrZeroLeZero (st p.fieldname) = true := by
          rw [hp, hst]; rfl
        rw [wrappedFileFilter_of_leZero st p hz]
        exact ih st name j f hst hi' hf
      · have hst' : (wrappedFileFilter st p).2 name = Option.none := by
          rw [wrappedFileFilter_snd_other st p name (fun he => hp he.symm), hst]
        exact ih (wrappedFileFilter st p).2 name j f hst' hi' hf

/-- Folding the declaration loop over fields none of which declares `n`
leaves the entry at `n` unchanged. -/
theorem foldlInit_not_mem (fields : List Field) :
    ∀ (st : LimitState) (n : String), (∀ f ∈ fields, f.name ≠ n) →
    (fields.foldl (fun st f => setCount st f.name (initCount f)) st) n = st n := by
  induction fields with
  | nil => intro st n _; rfl
  | cons g gs ih =>
    intro st n h
    rw [List.foldl_cons, ih _ n (fun f hf => h f (List.mem_cons_of_mem g hf))]
    have hg : ¬ n = g.name := fun he => h g (List.mem_cons_self g gs) he.symm
    simp [setCount, hg]

/-- Folding the declaration loop over fields with pairwise distinct names
sets each declared field's entry to its initial count, whatever the
starting state. -/
theorem foldlInit_mem (fields : List Field) :
    ∀ (st : LimitState), (fields.map Field.name).Nodup →
    ∀ f ∈ fields,
    (fields.foldl (fun st f => setCount st f.name (initCount f)) st) f.name =
      some (initCount f) := by
  induction fields with
  | nil => intro st _ f hf; cases hf
  | cons g gs ih =>
    intro st hnd f hf
    have hnd' : (∀ x ∈ gs, ¬ x.name = g.name) ∧ (gs.map Field.name).Nodup := by
      simpa using hnd
    rcases List.mem_cons.mp hf with hfg | hmem
    · have hno : ∀ x ∈ gs, x.name ≠ f.name := by
        intro x hx he
        exact hnd'.1 x hx (he.trans (congrArg Field.name hfg))
      rw [List.foldl_cons, foldlInit_not_mem gs _ f.name hno, hfg]
      simp [setCount]
    · rw [List.foldl_cons]
      exact ih (setCount st g.name (initCount g)) (by simpa using hnd'.2) f hmem

/-- Processing any part list from the all-absent limit state rejects
every part with `LIMIT_UNEXPECTED_FILE` carrying its field name, and
leaves the state all-absent. -/
theorem processParts_emptyState (parts : List File) :
    processParts emptyLimitState parts =
      (parts.map (fun f =>
        AdmitResult.rejectedWith ⟨ErrorCode.LIMIT_UNEXPECTED_FILE, some f.fieldname⟩),
       emptyLimitState) := by
  induction parts with
  | nil => rfl
  | cons f fs ih =>
    simp [processParts, wrappedFileFilter, emptyLimitState, jsOrZeroLeZero, ih]

/-- The options object `{dest: ""}`: no storage engine, an (empty-string)
destination supplied. -/
def optionsEmptyDest : Options :=
  ⟨Option.none, some "", Option.none, Option.none, Option.none⟩

/-- C2 counterexample: the claim says that when no explicit engine is
supplied and a destination path is supplied, a disk engine targeting that
destination is used.  But `else if (options.dest)` tests JavaScript
truthiness, and the empty string is falsy: with `storage` absent and
`dest = ""` supplied, construction selects the in-memory engine, not
`disk ""`. -/
theorem c2_counterexample :
    optionsEmptyDest.storage = Option.none ∧ optionsEmptyDest.dest = some "" ∧
    (Multer.construct optionsEmptyDest).storage = StorageChoice.memory ∧
    (Multer.construct optionsEmptyDest).storage ≠ StorageChoice.disk "" := by
  refine ⟨rfl, rfl, rfl, ?_⟩
  decide

/-- C2 (amended): at construction the storage engine is selected by
precedence — an explicit engine wins; otherwise a supplied non-empty
destination path yields a disk engine targeting it; otherwise (both
absent, or the destination is the falsy empty string) the in-memory
engine is used. -/
theorem c2_storage_selection (o : Options) :
    (∀ e, o.storage = some e →
      (Multer.construct o).storage = StorageChoice.engine e) ∧
    (o.storage = Option.none → ∀ d, o.dest = some d → d ≠ "" →
      (Multer.construct o).storage = StorageChoice.disk d) ∧
    (o.storage = Option.none → (o.dest = Option.none ∨ o.dest = some "") →
      (Multer.construct o).storage = StorageChoice.memory) := by
  refine ⟨?_, ?_, ?_⟩
  · intro e he
    simp [Multer.construct, selectStorage, he]
  · intro hs d hd hne
    simp [Multer.construct, selectStorage, hs, hd, hne]
  · rintro hs (hd | hd) <;> simp [Multer.construct, selectStorage, hs, hd]

/-- C2 witness: a concrete non-empty destination with no explicit engine
selects the disk engine at that destination. -/
theorem c2_witness :
    (Multer.construct
      ⟨Option.none, some "/tmp/uploads", Option.none, Option.none, Option.none⟩).storage =
      StorageChoice.disk "/tmp/uploads" :=
  (c2_storage_selection _).2.1 rfl "/tmp/uploads" rfl (by decide)

/-- C3: when no `fileFilter` option is supplied, the effective filter is
`allowAll`, which answers `cb(null, true)` — no error, accept — for every
request and every file. -/
theorem c3_default_filter_accepts_all (o : Options) (h : o.fileFilter = Option.none)
    (req : Req) (file : File) :
    (Multer.construct o).fileFilter req file = ⟨Option.none, true⟩ := by
  simp [Multer.construct, h, allowAll]

/-- C3 witness: the default filter accepts a concrete file on a concrete
request under the empty options object. -/
theorem c3_witness :
    (Multer.construct emptyOptions).fileFilter ⟨0⟩ ⟨"avatar", "me.png"⟩ =
      ⟨Option.none, true⟩ :=
  c3_default_filter_accepts_all emptyOptions rfl ⟨0⟩ ⟨"avatar", "me.png"⟩

/-- C6: `none()` declares zero fields with strategy `NONE`, and its
admission pipeline rejects every file part, whatever its field name, with
`LIMIT_UNEXPECTED_FILE` carrying that name. -/
theorem c6_none_rejects_every_file (m : MulterState) (parts : List File) :
    Multer.none m = ⟨some [], m.fileFilter, Strategy.NONE⟩ ∧
    admissionResults (Multer.none m) parts =
      parts.map (fun f =>
        AdmitResult.rejectedWith ⟨ErrorCode.LIMIT_UNEXPECTED_FILE, some f.fieldname⟩) := by
  refine ⟨rfl, ?_⟩
  have h : admissionResults (Multer.none m) parts =
      (processParts emptyLimitState parts).1 := rfl
  rw [h, processParts_emptyState]

/-- C7: `any()` passes the instance's caller filter through unwrapped with
strategy `ARRAY`; its admission pipeline performs no limit check — every
part, for every field name, goes to the caller's filter and none is
rejected with `LIMIT_UNEXPECTED_FILE`. -/
theorem c7_any_no_limit_enforcement (m : MulterState) (parts : List File) :
    Multer.any m = ⟨Option.none, m.fileFilter, Strategy.ARRAY⟩ ∧
    admissionResults (Multer.any m) parts =
      parts.map (fun _ => AdmitResult.toCallerFilter) :=
  ⟨rfl, rfl⟩

/-- C8: the `multer` factory rejects any argument that is neither
`undefined` nor a non-null object (throwing the invalid-options
`TypeError`), and an `undefined` argument constructs exactly what the
empty options object constructs. -/
theorem c8_factory_argument_validation (a : MulterArg) :
    (a = MulterArg.nullArg ∨ a = MulterArg.primArg →
      multer a =
        Except.error (FactoryError.invalidOptions "Expected object for argument options")) ∧
    multer MulterArg.undef = Except.ok (Multer.construct emptyOptions) ∧
    multer MulterArg.undef = multer (MulterArg.objArg emptyOptions) := by
  refine ⟨?_, rfl, rfl⟩
  rintro (rfl | rfl) <;> rfl

/-- C8 witness: the factory fails on the `null` argument. -/
theorem c8_witness :
    multer MulterArg.nullArg =
      Except.error (FactoryError.invalidOptions "Expected object for argument options") :=
  (c8_factory_argument_validation MulterArg.nullArg).1 (Or.inl rfl)

/-- C9: the limit state is request-scoped — the decisions recorded for
the request at position `i` are a function of that request's own part
list alone, so two runs of the same configuration agree whenever the part
lists agree, regardless of what other requests were processed. -/
theorem c9_request_scoped_limit_state (cfg : ParserConfig)
    (reqs : List (List File)) (i : Nat) :
    (processRequests cfg reqs)[i]? = (reqs[i]?).map (admissionResults cfg) ∧
    ∀ (reqs' : List (List File)) (j : Nat), reqs[i]? = reqs'[j]? →
      (processRequests cfg reqs)[i]? = (processRequests cfg reqs')[j]? := by
  constructor
  · simp [processRequests]
  · intro reqs' j h
    simp [processRequests, h]

/-- C9 witness: a request's admission decisions are the same whether it
is the only request or follows another request that consumed the same
field's budget. -/
theorem c9_witness :
    (processRequests (Multer.fields (Multer.construct emptyOptions) [⟨"a", some 1⟩])
        [[⟨"a", "x"⟩]])[0]? =
    (processRequests (Multer.fields (Multer.construct emptyOptions) [⟨"a", some 1⟩])
        [[⟨"a", "w"⟩, ⟨"a", "v"⟩], [⟨"a", "x"⟩]])[1]? :=
  (c9_request_scoped_limit_state _ _ 0).2 _ 1 rfl

/-- C1: under the limit-enforcing wrapped file filter built from the
field declarations, a file part naming a field whose initial budget is
the number `k` is passed on to the caller's filter exactly when fewer
than `k` earlier parts named that field (so exactly the first `k` such
parts pass), and is otherwise rejected with `LIMIT_UNEXPECTED_FILE`
carrying the field name and never reaches the caller's filter; a part
naming an undeclared field is always so rejected. -/
theorem c1_wrapped_filter_limit (fields : List Field) (name : String)
    (parts : List File) (i : Nat) (f : File)
    (hi : parts[i]? = some f) (hf : f.fieldname = name) :
    (∀ k : Int, filesLeftInit fields name = some (JSCount.num k) →
      (processParts (filesLeftInit fields) parts).1[i]? =
        some (if (countName name (parts.take i) : Int) < k
              then AdmitResult.toCallerFilter
              else AdmitResult.rejectedWith
                ⟨ErrorCode.LIMIT_UNEXPECTED_FILE, some name⟩)) ∧
    (filesLeftInit fields name = Option.none →
      (processParts (filesLeftInit fields) parts).1[i]? =
        some (AdmitResult.rejectedWith
          ⟨ErrorCode.LIMIT_UNEXPECTED_FILE, some name⟩)) :=
  ⟨fun k hk => processParts_decision parts _ name k i f hk hi hf,
   fun h => processParts_undeclared parts _ name i f h hi hf⟩

/-- C1 witness: with `photo` declared at `maxCount = 2`, the third
`photo` part is rejected with `LIMIT_UNEXPECTED_FILE` for `photo`. -/
theorem c1_witness :
    (processParts (filesLeftInit [⟨"photo", some 2⟩])
        [⟨"photo", "a"⟩, ⟨"photo", "b"⟩, ⟨"photo", "c"⟩]).1[2]? =
      some (AdmitResult.rejectedWith
        ⟨ErrorCode.LIMIT_UNEXPECTED_FILE, some "photo"⟩) := by
  have h := (c1_wrapped_filter_limit [⟨"photo", some 2⟩] "photo"
      [⟨"photo", "a"⟩, ⟨"photo", "b"⟩, ⟨"photo", "c"⟩] 2 ⟨"photo", "c"⟩
      rfl rfl).1 2 (by decide)
  rw [h]
  decide

/-- C4: for distinctly named field declarations, the per-request limit
state maps each declared field with numeric `maxCount = k` to `k`, each
declared field with `maxCount` absent to `Infinity`, and an undeclared
name to no entry at all — on which the wrapped filter rejects any file
immediately (zero budget). -/
theorem c4_limit_state_initialization (fields : List Field)
    (hnd : (fields.map Field.name).Nodup) :
    (∀ f ∈ fields, ∀ k : Int, f.maxCount = some k →
      filesLeftInit fields f.name = some (JSCount.num k)) ∧
    (∀ f ∈ fields, f.maxCount = Option.none →
      filesLeftInit fields f.name = some JSCount.inf) ∧
    (∀ n : String, (∀ f ∈ fields, f.name ≠ n) →
      filesLeftInit fields n = Option.none ∧
      ∀ file : File, file.fieldname = n →
        (wrappedFileFilter (filesLeftInit fields) file).1 =
          AdmitResult.rejectedWith ⟨ErrorCode.LIMIT_UNEXPECTED_FILE, some n⟩) := by
  refine ⟨?_, ?_, ?_⟩
  · intro f hf k hk
    rw [filesLeftInit, foldlInit_mem fields emptyLimitState hnd f hf]
    simp [initCount, hk]
  · intro f hf hk
    rw [filesLeftInit, foldlInit_mem fields emptyLimitState hnd f hf]
    simp [initCount, hk]
  · intro n hn
    have hnone : filesLeftInit fields n = Option.none := by
      rw [filesLeftInit, foldlInit_not_mem fields emptyLimitState n hn]
      rfl
    refine ⟨hnone, ?_⟩
    intro file hfile
    have hz : jsOrZeroLeZero (filesLeftInit fields file.fieldname) = true := by
      rw [hfile, hnone]; rfl
    rw [wrappedFileFilter_of_leZero _ file hz, hfile]

/-- C4 witness: concrete declarations `a : maxCount 3` and `b : no
maxCount` give budgets `3`, `Infinity`, and no entry for `c`. -/
theorem c4_witness :
    filesLeftInit [⟨"a", some 3⟩, ⟨"b", Option.none⟩] "a" =
      some (JSCount.num 3) ∧
    filesLeftInit [⟨"a", some 3⟩, ⟨"b", Option.none⟩] "b" = some JSCount.inf ∧
    filesLeftInit [⟨"a", some 3⟩, ⟨"b", Option.none⟩] "c" = Option.none := by
  have h := c4_limit_state_initialization [⟨"a", some 3⟩, ⟨"b", Option.none⟩]
    (by decide)
  exact ⟨h.1 ⟨"a", some 3⟩ (by decide) 3 rfl,
    h.2.1 ⟨"b", Option.none⟩ (by decide) rfl,
    (h.2.2 "c" (by decide)).1⟩

/-- C5: `single(name)` configures exactly the one declaration
`{name, maxCount: 1}` with strategy `VALUE`, and in any request it
handles, a part naming that field which already has an earlier accepted
or counted occurrence (at least one earlier part named the field) is
rejected with `LIMIT_UNEXPECTED_FILE` before the caller's filter is
reached. -/
theorem c5_single_field_limit (m : MulterState) (name : String) :
    Multer.single m name =
      ⟨some [⟨name, some 1⟩], m.fileFilter, Strategy.VALUE⟩ ∧
    ∀ (parts : List File) (i : Nat) (f : File),
      parts[i]? = some f → f.fieldname = name →
      1 ≤ countName name (parts.take i) →
      (admissionResults (Multer.single m name) parts)[i]? =
        some (AdmitResult.rejectedWith
          ⟨ErrorCode.LIMIT_UNEXPECTED_FILE, some name⟩) := by
  refine ⟨rfl, ?_⟩
  intro parts i f hi hf hc
  have hst : filesLeftInit [⟨name, some 1⟩] name = some (JSCount.num 1) := by
    simp [filesLeftInit, setCount, initCount, emptyLimitState]
  have h := processParts_decision parts (filesLeftInit [⟨name, some 1⟩])
    name 1 i f hst hi hf
  have hcond : ¬ ((countName name (parts.take i) : Int) < 1) := by omega
  have hres : admissionResults (Multer.single m name) parts =
      (processParts (filesLeftInit [⟨name, some 1⟩]) parts).1 := rfl
  rw [hres, h, if_neg hcond]

/-- C5 witness: the second `doc` part under `single("doc")` is rejected
with `LIMIT_UNEXPECTED_FILE` for `doc`. -/
theorem c5_witness :
    (admissionResults (Multer.single (Multer.construct emptyOptions) "doc")
        [⟨"doc", "a"⟩, ⟨"doc", "b"⟩])[1]? =
      some (AdmitResult.rejectedWith
        ⟨ErrorCode.LIMIT_UNEXPECTED_FILE, some "doc"⟩) :=
  (c5_single_field_limit (Multer.construct emptyOptions) "doc").2
    [⟨"doc", "a"⟩, ⟨"doc", "b"⟩] 1 ⟨"doc", "b"⟩ rfl rfl (by decide)

/-- A step of the wrapped filter preserves nonnegativity of every finite
entry: the decrement only happens after the `(x || 0) <= 0` test failed,
i.e. on a strictly positive finite entry or on `Infinity`. -/
theorem wrappedFileFilter_preserves_nonneg (st : LimitState) (file : File)
    (h : nonnegState st) : nonnegState (wrappedFileFilter st file).2 := by
  unfold wrappedFileFilter
  split
  · exact h
  · rename_i hguard
    intro n k hk
    simp only at hk
    by_cases hn : n = file.fieldname
    · rw [if_pos hn] at hk
      rcases hv : st file.fieldname with _ | v
      · rw [hv] at hguard
        exact absurd rfl hguard
      · rcases v with m | _
        · rw [hv] at hguard hk
          simp [jsOrZeroLeZero] at hguard
          simp [jsDec] at hk
          omega
        · rw [hv] at hk
          simp [jsDec] at hk
    · rw [if_neg hn] at hk
      exact h n k hk

/-- Processing a part list preserves nonnegativity of the limit state. -/
theorem processParts_preserves_nonneg (parts : List File) :
    ∀ st : LimitState, nonnegState st → nonnegState (processParts st parts).2 := by
  induction parts with
  | nil => intro st h; exact h
  | cons p ps ih =>
    intro st h
    exact ih _ (wrappedFileFilter_preserves_nonneg st p h)

/-- Folding the declaration loop preserves nonnegativity when every
declared numeric `maxCount` is nonnegative. -/
theorem foldlInit_nonneg (fields : List Field) :
    ∀ st : LimitState, nonnegState st →
    (∀ f ∈ fields, ∀ k : Int, f.maxCount = some k → 0 ≤ k) →
    nonnegState (fields.foldl (fun st f => setCount st f.name (initCount f)) st) := by
  induction fields with
  | nil => intro st hst _; exact hst
  | cons g gs ih =>
    intro st hst h
    rw [List.foldl_cons]
    refine ih _ ?_ (fun f hf => h f (List.mem_cons_of_mem g hf))
    intro n k hk
    unfold setCount at hk
    by_cases hn : n = g.name
    · rw [if_pos hn] at hk
      rcases hm : g.maxCount with _ | m
      · rw [initCount, hm] at hk
        simp at hk
      · rw [initCount, hm] at hk
        simp at hk
        exact hk ▸ h g (List.mem_cons_self g gs) m hm
    · rw [if_neg hn] at hk
      exact hst n k hk

/-- C10: rejection by the wrapped file filter leaves the limit state
unchanged and never invokes the caller's filter; the decrement happens
only when the budget test passed (a strictly positive finite entry or
`Infinity`); hence, starting from declarations whose numeric `maxCount`s
are nonnegative, every finite remaining count stays `≥ 0` throughout a
request. -/
theorem c10_rejection_and_nonnegativity :
    (∀ (st : LimitState) (file : File) (e : MulterError) (st' : LimitState),
      wrappedFileFilter st file = (AdmitResult.rejectedWith e, st') → st' = st) ∧
    (∀ (st : LimitState) (file : File),
      (wrappedFileFilter st file).1 = AdmitResult.toCallerFilter →
      jsOrZeroLeZero (st file.fieldname) = false) ∧
    (∀ (st : LimitState) (parts : List File),
      nonnegState st → nonnegState (processParts st parts).2) ∧
    (∀ fields : List Field,
      (∀ f ∈ fields, ∀ k : Int, f.maxCount = some k → 0 ≤ k) →
      nonnegState (filesLeftInit fields)) := by
  refine ⟨?_, ?_, ?_, ?_⟩
  · intro st file e st' hstep
    unfold wrappedFileFilter at hstep
    split at hstep
    · exact (Prod.mk.injEq _ _ _ _ ▸ hstep).2.symm ▸ rfl
    · simp at hstep
  · intro st file hstep
    unfold wrappedFileFilter at hstep
    split at hstep
    · simp at hstep
    · rename_i hguard
      simpa using hguard
  · intro st parts
    exact processParts_preserves_nonneg parts st
  · intro fields h
    exact foldlInit_nonneg fields emptyLimitState
      (fun n k hk => by simp [emptyLimitState] at hk) h

/-- C10 witness: a rejected file (undeclared field) leaves the state
unchanged, and processing two parts against a `maxCount = 1` declaration
leaves a nonnegative state. -/
theorem c10_witness :
    (wrappedFileFilter (filesLeftInit []) ⟨"x", "o"⟩).2 = filesLeftInit [] ∧
    nonnegState (processParts (filesLeftInit [⟨"a", some 1⟩])
      [⟨"a", "u"⟩, ⟨"a", "v"⟩]).2 := by
  constructor
  · exact c10_rejection_and_nonnegativity.1 (filesLeftInit []) ⟨"x", "o"⟩
      ⟨ErrorCode.LIMIT_UNEXPECTED_FILE, some "x"⟩ _ rfl
  · exact c10_rejection_and_nonnegativity.2.2.1 _ _
      (c10_rejection_and_nonnegativity.2.2.2 [⟨"a", some 1⟩]
        (by rintro f hf k hk; simp at hf; subst hf; simp at hk; omega))

end FastifyMulter
